import Mathlib

/-!
Verification of the uslishal voice-note bot (src/main.py): the per-user
record store persisted in one JSON file, the transcription and
summarization stages with their fallback policies, the voice-ingestion
pipeline, and the record listing used by the document-creation action.

The store content is modelled at the value level: a JSON object
`{"users": {...}}` becomes `Data`, a Python dict becomes an
insertion-ordered association list with unique keys (lookup takes the
first match, assignment replaces the first match in place or appends).
The external speech-to-text and summarizer models are black boxes, so a
stage invocation is modelled by an `Except Unit String` input: `.ok t`
means the underlying call returned text `t`, `.error ()` means it raised.
-/

namespace Uslishal

/-- One voice record, as built in save_voice_record (main.py lines 75-81):
fields id, audio_path, raw_text, summary_text, created_at. The id is
`int(datetime.now().timestamp())` and created_at is
`datetime.now().isoformat()`; both instants are inputs to the model. -/
structure Record where
  id : Int
  audio_path : String
  raw_text : String
  summary_text : String
  created_at : String
deriving Repr, DecidableEq

/-- One user entry `{"username": ..., "records": [...]}` as created in
get_or_create_user (main.py lines 66-69). -/
structure UserData where
  username : String
  records : List Record
deriving Repr, DecidableEq

/-- The whole persisted document `{"users": {...}}`: a Python dict from
user-id string to user entry, modelled as an insertion-ordered
association list. -/
structure Data where
  users : List (String × UserData)
deriving Repr, DecidableEq

/-- The literal `{"users": {}}` returned by load_data when the file is
absent or unparsable (main.py lines 52 and 57). -/
def emptyData : Data := ⟨[]⟩

/-- The Python exceptions that the modelled store operations can raise. -/
inductive PyError where
  | unicodeDecodeError
  | keyError
deriving Repr, DecidableEq

/-- The state of the backing file DATA_FILE, at the granularity the code
distinguishes: absent; present but its bytes are not valid UTF-8 (open
in text mode succeeds, json.load raises UnicodeDecodeError while
decoding); present and decodable but not valid JSON (json.load raises
json.JSONDecodeError); present with a valid JSON document, recorded as
its parsed value. -/
inductive FileState where
  | absent
  | undecodable
  | unparsable
  | parsed (d : Data)
deriving Repr, DecidableEq

/-- Python dict lookup `users[key]` / `key in users`: first entry with
this key (keys are unique by construction). -/
def getUser? : List (String × UserData) → String → Option UserData
  | [], _ => none
  | (k, v) :: rest, key => if k = key then some v else getUser? rest key

/-- Python dict assignment `users[key] = v`: replace the entry with this
key in place, or append a new entry at the end (insertion order). -/
def setUser : List (String × UserData) → String → UserData → List (String × UserData)
  | [], key, v => [(key, v)]
  | (k, w) :: rest, key, v =>
    if k = key then (k, v) :: rest else (k, w) :: setUser rest key v

/-- load_data (main.py lines 50-57). Absent file: return `{"users": {}}`.
Otherwise open and json.load, catching only json.JSONDecodeError and
FileNotFoundError: a JSON syntax error yields `{"users": {}}`, but a
UnicodeDecodeError raised while decoding non-UTF-8 bytes is not in the
except clause and propagates to the caller. -/
def load_data : FileState → Except PyError Data
  | .absent => .ok emptyData
  | .undecodable => .error .unicodeDecodeError
  | .unparsable => .ok emptyData
  | .parsed d => .ok d

/-- save_data (main.py lines 59-61): json.dump of the data. The dump of a
value is a valid JSON document that parses back to an equal value, so at
this granularity the written file is recorded as `parsed d`. -/
def save_data (d : Data) : FileState := .parsed d

/-- get_or_create_user (main.py lines 63-71), at the store-content level:
if `str(tg_user_id)` is not a key, insert `{"username": username,
"records": []}` and save; return the entry under that key. When the key
is already present nothing is written. -/
def get_or_create_user (d : Data) (tg_user_id : Int) (username : String) :
    Data × UserData :=
  match getUser? d.users (toString tg_user_id) with
  | some u => (d, u)
  | none =>
    let u : UserData := { username := username, records := [] }
    (⟨setUser d.users (toString tg_user_id) u⟩, u)

/-- save_voice_record (main.py lines 73-84): build the record from the
two `datetime.now()` calls (the integer timestamp `ts` for id, the ISO
string `now_iso` for created_at) and append it to
`data["users"][str(user_id)]["records"]`; that indexing raises KeyError
when the user is absent, modelled as `none`. Returns the new id. -/
def save_voice_record (d : Data) (user_id : Int)
    (audio_path raw_text summary_text : String) (ts : Int) (now_iso : String) :
    Option (Data × Int) :=
  match getUser? d.users (toString user_id) with
  | none => none
  | some u =>
    let record : Record :=
      { id := ts, audio_path := audio_path, raw_text := raw_text,
        summary_text := summary_text, created_at := now_iso }
    some (⟨setUser d.users (toString user_id)
      { u with records := u.records ++ [record] }⟩, record.id)

/-- get_user_records (main.py lines 86-88):
`data["users"].get(str(user_id), {}).get("records", [])`. -/
def get_user_records (d : Data) (user_id : Int) : List Record :=
  match getUser? d.users (toString user_id) with
  | some u => u.records
  | none => []

/-- get_record_by_id (main.py lines 90-95): first record of that user
whose id matches, else None. -/
def get_record_by_id (d : Data) (user_id record_id : Int) : Option Record :=
  (get_user_records d user_id).find? (fun r => r.id == record_id)

/-- The for-loop of update_summary_text (main.py lines 99-102): walk the
record list, set summary_text on the first record whose id matches, then
break; later records are not visited. -/
def updateRecords : List Record → Int → String → List Record
  | [], _, _ => []
  | r :: rest, record_id, new_summary =>
    if r.id = record_id then { r with summary_text := new_summary } :: rest
    else r :: updateRecords rest record_id new_summary

/-- update_summary_text (main.py lines 97-103): index
`data["users"][str(user_id)]` (KeyError when absent), run the update
loop over its records, and save. The save also happens when no record
matched, rewriting the file with unchanged content. -/
def update_summary_text (d : Data) (user_id record_id : Int) (new_summary : String) :
    Except PyError Data :=
  match getUser? d.users (toString user_id) with
  | none => .error .keyError
  | some u =>
    .ok ⟨setUser d.users (toString user_id)
      { u with records := updateRecords u.records record_id new_summary }⟩

/-- transcribe_audio (main.py lines 126-134): return the text produced by
the whisper model, or the fixed fallback sentence when anything in the
try block raises (model missing, transcription failure). -/
def transcribe_audio (whisperResult : Except Unit String) : String :=
  match whisperResult with
  | .ok t => t
  | .error _ => "Не удалось понять тебя, родной"

/-- summarize_text (main.py lines 136-152). load_models never raises (it
catches internally), so inputs shorter than 50 characters are returned
unchanged before the summarizer is invoked. Otherwise the summarizer
output is returned; if that invocation raises, the fallback on line 152
is `text[:100] + "..." if len(text) > 100 else text`, which by Python
precedence truncates only inputs longer than 100 characters and returns
inputs of length 50 to 100 unchanged. -/
def summarize_text (summarizerResult : Except Unit String) (text : String) : String :=
  if text.length < 50 then text
  else
    match summarizerResult with
    | .ok s => s
    | .error _ => if text.length > 100 then text.take 100 ++ "..." else text

/-- handle_voice (main.py lines 205-233), store-content part after the
audio download succeeded: get_or_create_user, transcribe_audio,
summarize_text, save_voice_record. The unreachable `none` branch (the
user always exists after get_or_create_user) leaves the store as is. -/
def handle_voice (d : Data) (user_id : Int) (username audio_path : String)
    (whisperResult summarizerResult : Except Unit String)
    (ts : Int) (now_iso : String) : Data :=
  let d1 := (get_or_create_user d user_id username).1
  let raw_text := transcribe_audio whisperResult
  let summary_text := summarize_text summarizerResult raw_text
  match save_voice_record d1 user_id audio_path raw_text summary_text ts now_iso with
  | some (d2, _) => d2
  | none => d1

/-- The record listing of create_document_button (main.py lines 240-249):
None when the user has no records (early return at line 243), otherwise
`sorted(records, key=lambda r: r["created_at"], reverse=True)[:10]` —
a stable descending sort on the created_at string, cut to 10 entries. -/
def create_document_listing (d : Data) (user_id : Int) : Option (List Record) :=
  if (get_user_records d user_id).isEmpty then none
  else some (((get_user_records d user_id).mergeSort
    (fun a b => decide (b.created_at ≤ a.created_at))).take 10)

/-- Per-user id uniqueness: no user entry holds two records with the same
id. -/
def perUserUniqueIds (d : Data) : Prop :=
  ∀ e ∈ d.users, e.2.records.Pairwise (fun a b => a.id ≠ b.id)

/-- Store states reachable from the initial empty store through the
mutating operations, with the two clock readings of save_voice_record as
free inputs (ids come from wall-clock timestamps). -/
inductive Reachable : Data → Prop where
  | init : Reachable emptyData
  | goc (d : Data) (uid : Int) (name : String) :
      Reachable d → Reachable (get_or_create_user d uid name).1
  | save (d : Data) (uid : Int) (path raw summ : String) (ts : Int) (iso : String)
      (d' : Data) (n : Int) :
      Reachable d → save_voice_record d uid path raw summ ts iso = some (d', n) →
      Reachable d'
  | upd (d : Data) (uid rid : Int) (txt : String) (d' : Data) :
      Reachable d → update_summary_text d uid rid txt = .ok d' → Reachable d'

/-- Reachability restricted to runs where every appended record is
created at a timestamp different from every id already in that user's
list (in particular, runs where no two records of one user are created
within the same clock second). -/
inductive ReachableFresh : Data → Prop where
  | init : ReachableFresh emptyData
  | goc (d : Data) (uid : Int) (name : String) :
      ReachableFresh d → ReachableFresh (get_or_create_user d uid name).1
  | save (d : Data) (uid : Int) (path raw summ : String) (ts : Int) (iso : String)
      (d' : Data) (n : Int) :
      ReachableFresh d → (∀ r ∈ get_user_records d uid, r.id ≠ ts) →
      save_voice_record d uid path raw summ ts iso = some (d', n) →
      ReachableFresh d'
  | upd (d : Data) (uid rid : Int) (txt : String) (d' : Data) :
      ReachableFresh d → update_summary_text d uid rid txt = .ok d' →
      ReachableFresh d'

/-- A 200-character input for the truncation scenario. -/
def longText : String := String.mk (List.replicate 200 'a')

/-- A 50-character input, at the threshold of the summarizer branch. -/
def midText : String := String.mk (List.replicate 50 'a')

/-- A 51-character transcript used to exercise the fallback path. -/
def overText : String := String.mk (List.replicate 51 'b')

/-- A 40-character transcript for the short-input scenario. -/
def shortText : String := String.mk (List.replicate 40 'c')

/-- A store with one user holding two records, ids 5 and 7. -/
def d4 : Data :=
  ⟨[("1", ⟨"u", [⟨5, "p5", "r5", "s5", "t5"⟩, ⟨7, "p7", "r7", "s7", "t7"⟩]⟩)]⟩

/-- A single record for exercising the listing. -/
def r5 : Record := ⟨3, "p", "r", "s", "2024-01-01T00:00:00"⟩

/-- A store with one user holding the single record r5. -/
def d5 : Data := ⟨[("1", ⟨"u", [r5]⟩)]⟩

/-- The store after the first interaction of user 1: entry present, no
records yet. -/
def dA : Data := ⟨[("1", ⟨"u", []⟩)]⟩

/-- Two records saved during the same clock second: both ids are 100. -/
def rB1 : Record := ⟨100, "p1", "r1", "s1", "t1"⟩

/-- Second record saved within the same clock second as rB1. -/
def rB2 : Record := ⟨100, "p2", "r2", "s2", "t2"⟩

/-- The store after user 1 saved one record at second 100. -/
def dB : Data := ⟨[("1", ⟨"u", [rB1]⟩)]⟩

/-- The store after user 1 saved two records within second 100: the two
record ids collide. -/
def dDup : Data := ⟨[("1", ⟨"u", [rB1, rB2]⟩)]⟩

/-- A two-user store for the frame property of update_summary_text. -/
def d9 : Data :=
  ⟨[("1", ⟨"u", [⟨5, "p5", "r5", "s5", "t5"⟩, ⟨7, "p7", "r7", "s7", "t7"⟩]⟩),
    ("2", ⟨"v", []⟩)]⟩

/-- A one-user store with a stored display name, for get_or_create_user. -/
def d10 : Data := ⟨[("1", ⟨"origname", [⟨5, "p", "r", "s", "t"⟩]⟩)]⟩

/-! Dictionary lemmas: lookup and assignment on the association-list
model of a Python dict. -/

theorem getUser?_setUser_self (l : List (String × UserData)) (k : String) (v : UserData) :
    getUser? (setUser l k v) k = some v := by
  induction l with
  | nil => simp [setUser, getUser?]
  | cons e rest ih =>
    obtain ⟨k', w⟩ := e
    by_cases h : k' = k
    · simp [setUser, h, getUser?]
    · simp [setUser, h, getUser?, ih]

theorem getUser?_setUser_ne (l : List (String × UserData)) (k k' : String) (v : UserData)
    (h : k' ≠ k) : getUser? (setUser l k v) k' = getUser? l k' := by
  induction l with
  | nil => simp [setUser, getUser?, Ne.symm h]
  | cons e rest ih =>
    obtain ⟨k'', w⟩ := e
    by_cases hk : k'' = k
    · subst hk
      simp [setUser, getUser?, Ne.symm h]
    · simp [setUser, hk, getUser?, ih]

theorem mem_setUser (l : List (String × UserData)) (k : String) (v : UserData)
    (e : String × UserData) (he : e ∈ setUser l k v) : e = (k, v) ∨ e ∈ l := by
  induction l with
  | nil => simpa [setUser] using he
  | cons hd rest ih =>
    obtain ⟨k', w⟩ := hd
    by_cases h : k' = k
    · subst h
      rw [setUser, if_pos rfl] at he
      rcases List.mem_cons.mp he with h1 | h1
      · exact Or.inl h1
      · exact Or.inr (List.mem_cons_of_mem _ h1)
    · rw [setUser, if_neg h] at he
      rcases List.mem_cons.mp he with h1 | h1
      · exact Or.inr (h1 ▸ List.mem_cons_self _ _)
      · rcases ih h1 with h2 | h2
        · exact Or.inl h2
        · exact Or.inr (List.mem_cons_of_mem _ h2)

theorem getUser?_mem (l : List (String × UserData)) (k : String) (u : UserData)
    (h : getUser? l k = some u) : (k, u) ∈ l := by
  induction l with
  | nil => simp [getUser?] at h
  | cons hd rest ih =>
    obtain ⟨k', w⟩ := hd
    by_cases hk : k' = k
    · subst hk
      rw [getUser?, if_pos rfl] at h
      have hw : w = u := by injection h
      subst hw
      exact List.mem_cons_self _ _
    · rw [getUser?, if_neg hk] at h
      exact List.mem_cons_of_mem _ (ih h)

theorem setUser_lookup_id (l : List (String × UserData)) (k : String) (u : UserData)
    (h : getUser? l k = some u) : setUser l k u = l := by
  induction l with
  | nil => simp [getUser?] at h
  | cons hd rest ih =>
    obtain ⟨k', w⟩ := hd
    by_cases hk : k' = k
    · subst hk
      rw [getUser?, if_pos rfl] at h
      have hw : w = u := by injection h
      subst hw
      rw [setUser, if_pos rfl]
    · rw [getUser?, if_neg hk] at h
      rw [setUser, if_neg hk, ih h]

theorem setUser_none_append (l : List (String × UserData)) (k : String) (v : UserData)
    (h : getUser? l k = none) : setUser l k v = l ++ [(k, v)] := by
  induction l with
  | nil => simp [setUser]
  | cons hd rest ih =>
    obtain ⟨k', w⟩ := hd
    by_cases hk : k' = k
    · subst hk
      rw [getUser?, if_pos rfl] at h
      cases h
    · rw [getUser?, if_neg hk] at h
      rw [setUser, if_neg hk, ih h, List.cons_append]

/-! Lemmas about the update loop of update_summary_text. -/

theorem updateRecords_map_id (l : List Record) (record_id : Int) (new_summary : String) :
    (updateRecords l record_id new_summary).map (fun r => r.id)
      = l.map (fun r => r.id) := by
  induction l with
  | nil => rfl
  | cons r rest ih =>
    by_cases h : r.id = record_id <;> simp [updateRecords, h, ih]

theorem updateRecords_no_match (l : List Record) (record_id : Int) (new_summary : String)
    (h : ∀ r ∈ l, r.id ≠ record_id) : updateRecords l record_id new_summary = l := by
  induction l with
  | nil => rfl
  | cons r rest ih =>
    rw [updateRecords, if_neg (h r (List.mem_cons_self _ _)),
      ih (fun x hx => h x (List.mem_cons_of_mem _ hx))]

theorem updateRecords_first_match (pre : List Record) (r : Record) (post : List Record)
    (record_id : Int) (new_summary : String)
    (hpre : ∀ p ∈ pre, p.id ≠ record_id) (hr : r.id = record_id) :
    updateRecords (pre ++ r :: post) record_id new_summary
      = pre ++ { r with summary_text := new_summary } :: post := by
  induction pre with
  | nil => simp [updateRecords, hr]
  | cons p rest ih =>
    rw [List.cons_append, updateRecords,
      if_neg (hpre p (List.mem_cons_self _ _)),
      ih (fun x hx => hpre x (List.mem_cons_of_mem _ hx)), List.cons_append]

theorem find?_updateRecords (l : List Record) (record_id : Int) (new_summary : String)
    (h : ∃ r ∈ l, r.id = record_id) :
    ∃ r₀, (updateRecords l record_id new_summary).find? (fun x => x.id == record_id)
        = some r₀ ∧ r₀.summary_text = new_summary := by
  induction l with
  | nil => simp at h
  | cons r rest ih =>
    by_cases hr : r.id = record_id
    · refine ⟨{ r with summary_text := new_summary }, ?_, rfl⟩
      rw [updateRecords, if_pos hr]
      exact List.find?_cons_of_pos _ (by simpa using hr)
    · obtain ⟨r', hmem, hid⟩ := h
      rcases List.mem_cons.mp hmem with h1 | h1
      · exact absurd (h1 ▸ hid) hr
      · obtain ⟨r₀, hf, hs⟩ := ih ⟨r', h1, hid⟩
        refine ⟨r₀, ?_, hs⟩
        rw [updateRecords, if_neg hr]
        rw [List.find?_cons_of_neg _ (by simpa using hr)]
        exact hf

/-! Unfolding lemmas for the store operations. -/

theorem get_user_records_eq (d : Data) (uid : Int) (u : UserData)
    (h : getUser? d.users (toString uid) = some u) :
    get_user_records d uid = u.records := by
  rw [get_user_records.eq_def, h]

theorem get_user_records_none (d : Data) (uid : Int)
    (h : getUser? d.users (toString uid) = none) :
    get_user_records d uid = [] := by
  rw [get_user_records.eq_def, h]

theorem get_or_create_user_found (d : Data) (uid : Int) (name : String) (u : UserData)
    (h : getUser? d.users (toString uid) = some u) :
    get_or_create_user d uid name = (d, u) := by
  rw [get_or_create_user.eq_def, h]

theorem get_or_create_user_new (d : Data) (uid : Int) (name : String)
    (h : getUser? d.users (toString uid) = none) :
    get_or_create_user d uid name
      = (⟨setUser d.users (toString uid) ⟨name, []⟩⟩, ⟨name, []⟩) := by
  rw [get_or_create_user.eq_def, h]

theorem save_voice_record_found (d : Data) (uid : Int) (path raw summ : String)
    (ts : Int) (iso : String) (u : UserData)
    (h : getUser? d.users (toString uid) = some u) :
    save_voice_record d uid path raw summ ts iso
      = some (⟨setUser d.users (toString uid)
          { u with records := u.records ++ [⟨ts, path, raw, summ, iso⟩] }⟩, ts) := by
  rw [save_voice_record.eq_def, h]

/-- The store-content effect of the ingestion pipeline: exactly one
record, carrying the stage outputs, is appended to the record list of
the incoming user; this holds whether or not the user already existed. -/
theorem handle_voice_records (d : Data) (user_id : Int) (username audio_path : String)
    (whisperResult summarizerResult : Except Unit String) (ts : Int) (now_iso : String) :
    get_user_records (handle_voice d user_id username audio_path whisperResult
        summarizerResult ts now_iso) user_id =
      get_user_records d user_id ++
        [⟨ts, audio_path, transcribe_audio whisperResult,
          summarize_text summarizerResult (transcribe_audio whisperResult), now_iso⟩] := by
  cases hu : getUser? d.users (toString user_id) with
  | some u =>
    have h1 := get_or_create_user_found d user_id username u hu
    have h2 := save_voice_record_found d user_id audio_path (transcribe_audio whisperResult)
      (summarize_text summarizerResult (transcribe_audio whisperResult)) ts now_iso u hu
    simp only [handle_voice, h1, h2]
    rw [get_user_records_eq _ user_id _ (getUser?_setUser_self _ _ _),
      get_user_records_eq d user_id u hu]
  | none =>
    have h1 := get_or_create_user_new d user_id username hu
    have h2 := save_voice_record_found
      (⟨setUser d.users (toString user_id) ⟨username, []⟩⟩ : Data) user_id audio_path
      (transcribe_audio whisperResult)
      (summarize_text summarizerResult (transcribe_audio whisperResult)) ts now_iso
      ⟨username, []⟩ (getUser?_setUser_self _ _ _)
    simp only [handle_voice, h1, h2]
    rw [get_user_records_eq _ user_id _ (getUser?_setUser_self _ _ _),
      get_user_records_none d user_id hu]

/-- The transcription output is non-empty whenever the model raised (the
fallback sentence is non-empty) or its successful output was non-empty. -/
theorem transcribe_audio_nonempty (whisperResult : Except Unit String)
    (hw : ∀ t, whisperResult = .ok t → t ≠ "") : transcribe_audio whisperResult ≠ "" := by
  cases whisperResult with
  | ok t => exact hw t rfl
  | error e =>
    show ("Не удалось понять тебя, родной" : String) ≠ ""
    decide

/-- The summary is non-empty whenever the input text is non-empty and
every successful summarizer output is non-empty (the truncation fallback
always ends in the marker, hence is non-empty). -/
theorem summarize_text_nonempty (summarizerResult : Except Unit String) (text : String)
    (ht : text ≠ "") (hs : ∀ s, summarizerResult = .ok s → s ≠ "") :
    summarize_text summarizerResult text ≠ "" := by
  rw [summarize_text.eq_def]
  by_cases hlen : text.length < 50
  · rw [if_pos hlen]; exact ht
  · rw [if_neg hlen]
    cases summarizerResult with
    | ok s => exact hs s rfl
    | error e =>
      show (if text.length > 100 then text.take 100 ++ "..." else text) ≠ ""
      by_cases h100 : text.length > 100
      · rw [if_pos h100]
        intro hc
        have hlc := congrArg String.length hc
        rw [String.length_append] at hlc
        have e3 : ("..." : String).length = 3 := rfl
        have e0 : ("" : String).length = 0 := rfl
        rw [e3, e0] at hlc
        omega
      · rw [if_neg h100]; exact ht

/-- C1 fails as claimed when the transcription call succeeds but the
model returns the empty transcript: exactly one record is appended, but
its raw_text (and hence its summary_text, the input being shorter than
50 characters) is the empty string. -/
theorem handle_voice_empty_transcript :
    ∃ r, get_user_records
        (handle_voice emptyData 1 "u" "audio/f.ogg" (.ok "") (.ok "S") 100 "t") 1 = [r] ∧
      r.raw_text = "" ∧ r.summary_text = "" :=
  ⟨⟨100, "audio/f.ogg", "", "", "t"⟩, by decide, rfl, rfl⟩

/-- C1 amended: for every valid input the pipeline appends exactly one
record to that user's list, whose raw_text and summary_text are the
stage outputs (fallbacks included); both fields are non-empty provided
every successful model output is non-empty — in particular whenever a
stage fails, since its fallback text is non-empty. A successful
transcription returning the empty string stores empty fields. -/
theorem handle_voice_appends_one (d : Data) (user_id : Int)
    (username audio_path : String) (whisperResult summarizerResult : Except Unit String)
    (ts : Int) (now_iso : String)
    (hw : ∀ t, whisperResult = .ok t → t ≠ "")
    (hs : ∀ s, summarizerResult = .ok s → s ≠ "") :
    get_user_records (handle_voice d user_id username audio_path whisperResult
        summarizerResult ts now_iso) user_id =
      get_user_records d user_id ++
        [⟨ts, audio_path, transcribe_audio whisperResult,
          summarize_text summarizerResult (transcribe_audio whisperResult), now_iso⟩] ∧
    transcribe_audio whisperResult ≠ "" ∧
    summarize_text summarizerResult (transcribe_audio whisperResult) ≠ "" :=
  ⟨handle_voice_records d user_id username audio_path whisperResult summarizerResult
      ts now_iso,
    transcribe_audio_nonempty whisperResult hw,
    summarize_text_nonempty summarizerResult (transcribe_audio whisperResult)
      (transcribe_audio_nonempty whisperResult hw) hs⟩

set_option maxRecDepth 40000 in
theorem handle_voice_appends_one_witness :
    get_user_records (handle_voice emptyData 1 "u" "audio/f.ogg" (.ok overText)
        (.error ()) 100 "t") 1 =
      get_user_records emptyData 1 ++
        [⟨100, "audio/f.ogg", transcribe_audio (.ok overText),
          summarize_text (.error ()) (transcribe_audio (.ok overText)), "t"⟩] ∧
    transcribe_audio (.ok overText) ≠ "" ∧
    summarize_text (.error ()) (transcribe_audio (.ok overText)) ≠ "" :=
  handle_voice_appends_one emptyData 1 "u" "audio/f.ogg" (.ok overText) (.error ())
    100 "t" (by intro t h; cases h; decide) (fun s h => nomatch h)

/-- C4: replacing a summary and reading the record back by id yields
exactly the new text: both the update loop and get_record_by_id act on
the first record with the given id, so the read sees the full
replacement, with no merging of the prior value. -/
theorem update_then_get (d : Data) (user_id record_id : Int) (new_summary : String)
    (h : ∃ r ∈ get_user_records d user_id, r.id = record_id) :
    ∃ d', update_summary_text d user_id record_id new_summary = .ok d' ∧
      ∃ r, get_record_by_id d' user_id record_id = some r ∧
        r.summary_text = new_summary := by
  cases hu : getUser? d.users (toString user_id) with
  | none =>
    rw [get_user_records_none d user_id hu] at h
    simp at h
  | some u =>
    rw [get_user_records_eq d user_id u hu] at h
    refine ⟨⟨setUser d.users (toString user_id)
        { u with records := updateRecords u.records record_id new_summary }⟩, ?_, ?_⟩
    · rw [update_summary_text.eq_def, hu]
    · obtain ⟨r₀, hf, hsum⟩ := find?_updateRecords u.records record_id new_summary h
      refine ⟨r₀, ?_, hsum⟩
      rw [get_record_by_id, get_user_records_eq _ user_id _ (getUser?_setUser_self _ _ _)]
      exact hf

theorem update_then_get_witness :
    ∃ d', update_summary_text d4 1 7 "new text" = .ok d' ∧
      ∃ r, get_record_by_id d' 1 7 = some r ∧ r.summary_text = "new text" :=
  update_then_get d4 1 7 "new text" ⟨⟨7, "p7", "r7", "s7", "t7"⟩, by decide, rfl⟩

/-- C2: load_data returns the empty mapping for an absent file and for a
file whose decoded content is not valid JSON — but for a backing file
whose bytes are not valid UTF-8, json.load raises UnicodeDecodeError
while decoding, and the except clause catches only json.JSONDecodeError
and FileNotFoundError: the error propagates to the caller, against the
claim that load_data never raises for any state of the backing file. -/
theorem load_data_undecodable_raises :
    load_data .absent = .ok emptyData ∧
    load_data .unparsable = .ok emptyData ∧
    load_data .undecodable = .error .unicodeDecodeError :=
  ⟨rfl, rfl, rfl⟩

/-- C7: for every input shorter than 50 characters, summarize_text
returns the input unchanged, whatever the summarizer invocation would
have done (the threshold test runs before the model is invoked and
nothing before it can raise). -/
theorem summarize_text_short_unchanged (summarizerResult : Except Unit String)
    (text : String) (h : text.length < 50) :
    summarize_text summarizerResult text = text := by
  rw [summarize_text.eq_def, if_pos h]

theorem summarize_text_short_unchanged_witness :
    shortText.length < 50 ∧ summarize_text (.error ()) shortText = shortText :=
  ⟨by decide, summarize_text_short_unchanged (.error ()) shortText (by decide)⟩

set_option maxRecDepth 40000 in
/-- C3 fails as claimed at a 50-character input: in the fallback
`text[:100] + "..." if len(text) > 100 else text` the conditional
governs the whole expression, so a failing summarization of an input of
length 50 to 100 returns the input unchanged, with no truncation marker
appended. -/
theorem summarize_text_mid_fallback_no_marker :
    50 ≤ midText.length ∧
    summarize_text (.error ()) midText = midText ∧
    summarize_text (.error ()) midText ≠ midText.take 100 ++ "..." := by
  refine ⟨by decide, by decide, by decide⟩

/-- C3 amended: when the summarizer invocation fails, an input longer
than 100 characters is truncated to its first 100 characters with the
trailing marker "..."; a failing input of length 50 to 100 is returned
unchanged (inputs shorter than 50 never reach the summarizer). The
200-character scenario of the claim falls in the truncated case. -/
theorem summarize_text_fallback (text : String) :
    (50 ≤ text.length → text.length ≤ 100 →
      summarize_text (.error ()) text = text) ∧
    (100 < text.length →
      summarize_text (.error ()) text = text.take 100 ++ "...") := by
  constructor
  · intro h1 h2
    rw [summarize_text.eq_def, if_neg (by omega)]
    exact if_neg (by omega)
  · intro h1
    rw [summarize_text.eq_def, if_neg (by omega)]
    exact if_pos (by omega)

set_option maxRecDepth 100000 in
theorem summarize_text_fallback_witness :
    100 < longText.length ∧
    summarize_text (.error ()) longText = longText.take 100 ++ "..." :=
  ⟨by decide, (summarize_text_fallback longText).2 (by decide)⟩

/-- C8: for every loadable backing state, saving the loaded value leaves
the persisted state content-equivalent to its input: loading again
yields exactly the mapping the original state loaded to (an absent or
unparsable input state loads as the empty mapping both before and after
the cycle; a parsed state reproduces its value). -/
theorem save_load_roundtrip (s : FileState) (d : Data) (h : load_data s = .ok d) :
    load_data (save_data d) = load_data s := by
  rw [h]
  rfl

theorem save_load_roundtrip_witness :
    load_data .unparsable = .ok emptyData ∧
    load_data (save_data emptyData) = load_data .unparsable :=
  ⟨rfl, save_load_roundtrip .unparsable emptyData rfl⟩

/-- C5: every listing rendered by the document-creation action contains
at most 10 entries, ordered by non-increasing created_at (the sort key
is the created_at string, whose lexicographic order agrees with
chronological order for the uniform ISO-8601 format the code writes). -/
theorem create_document_listing_spec (d : Data) (user_id : Int) (l : List Record)
    (h : create_document_listing d user_id = some l) :
    l.length ≤ 10 ∧ l.Pairwise (fun a b => b.created_at ≤ a.created_at) := by
  rw [create_document_listing] at h
  by_cases he : (get_user_records d user_id).isEmpty
  · rw [if_pos he] at h; cases h
  · rw [if_neg he] at h
    have hl : l = ((get_user_records d user_id).mergeSort
        (fun a b => decide (b.created_at ≤ a.created_at))).take 10 := by
      injection h with h1
      exact h1.symm
    subst hl
    constructor
    · rw [List.length_take]
      omega
    · have hs := @List.sorted_mergeSort Record
        (fun a b => decide (b.created_at ≤ a.created_at))
        (fun a b c hab hbc => by
          simp only [decide_eq_true_eq] at hab hbc ⊢
          exact le_trans hbc hab)
        (fun a b => by
          simp only [Bool.or_eq_true, decide_eq_true_eq]
          exact le_total _ _)
        (get_user_records d user_id)
      have hs' : ((get_user_records d user_id).mergeSort
          (fun a b => decide (b.created_at ≤ a.created_at))).Pairwise
            (fun a b => b.created_at ≤ a.created_at) :=
        hs.imp (fun hab => by simpa using hab)
      exact List.Pairwise.sublist (List.take_sublist 10 _) hs'

theorem create_document_listing_spec_witness :
    ([r5] : List Record).length ≤ 10 ∧
    List.Pairwise (fun a b : Record => b.created_at ≤ a.created_at) [r5] :=
  create_document_listing_spec d5 1 [r5] (by
    have hrec : get_user_records d5 1 = [r5] := by decide
    simp [create_document_listing, hrec, List.mergeSort_singleton])

/-- C6 fails as claimed: record ids are second-resolution wall-clock
timestamps, so two records of one user saved within the same second get
the same id. The state below, holding two records with id 100 for user
1, is reachable from the empty store. -/
theorem per_user_id_not_unique :
    ∃ d u, Reachable d ∧ getUser? d.users "1" = some u ∧
      ¬ u.records.Pairwise (fun a b => a.id ≠ b.id) := by
  refine ⟨dDup, ⟨"u", [rB1, rB2]⟩, ?_, by decide, ?_⟩
  · have h1 : Reachable dA := by
      have h := Reachable.goc emptyData 1 "u" Reachable.init
      have e : (get_or_create_user emptyData 1 "u").1 = dA := by decide
      rw [e] at h
      exact h
    have h2 : Reachable dB :=
      Reachable.save dA 1 "p1" "r1" "s1" 100 "t1" dB 100 h1 (by decide)
    exact Reachable.save dB 1 "p2" "r2" "s2" 100 "t2" dDup 100 h2 (by decide)
  · intro hp
    have := (List.pairwise_cons.mp hp).1 rB2 (by simp)
    exact this rfl

/-- get_or_create_user preserves per-user id uniqueness: an existing
entry is untouched, a fresh entry has no records. -/
theorem perUserUniqueIds_goc (d : Data) (uid : Int) (name : String)
    (hd : perUserUniqueIds d) : perUserUniqueIds (get_or_create_user d uid name).1 := by
  cases hu : getUser? d.users (toString uid) with
  | some u =>
    rw [get_or_create_user_found d uid name u hu]
    exact hd
  | none =>
    rw [get_or_create_user_new d uid name hu]
    intro e he
    rcases mem_setUser _ _ _ _ he with h1 | h1
    · subst h1
      exact List.Pairwise.nil
    · exact hd e h1

/-- save_voice_record preserves per-user id uniqueness provided the new
timestamp differs from every id already in that user's list. -/
theorem perUserUniqueIds_save (d : Data) (uid : Int) (path raw summ : String)
    (ts : Int) (iso : String) (d' : Data) (n : Int)
    (hsave : save_voice_record d uid path raw summ ts iso = some (d', n))
    (hd : perUserUniqueIds d)
    (hfresh : ∀ r ∈ get_user_records d uid, r.id ≠ ts) :
    perUserUniqueIds d' := by
  cases hu : getUser? d.users (toString uid) with
  | none =>
    rw [save_voice_record.eq_def, hu] at hsave
    cases hsave
  | some u =>
    rw [save_voice_record_found d uid path raw summ ts iso u hu] at hsave
    injection hsave with h1
    obtain ⟨h2, h3⟩ := Prod.mk.injEq .. |>.mp h1
    subst h2
    intro e he
    rcases mem_setUser _ _ _ _ he with h1' | h1'
    · subst h1'
      show List.Pairwise (fun a b => a.id ≠ b.id)
        (u.records ++ [⟨ts, path, raw, summ, iso⟩])
      rw [List.pairwise_append]
      refine ⟨hd (toString uid, u) (getUser?_mem _ _ _ hu), by simp, ?_⟩
      intro a ha b hb
      rw [List.mem_singleton] at hb
      subst hb
      exact hfresh a (by rw [get_user_records_eq d uid u hu]; exact ha)
    · exact hd e h1'

/-- update_summary_text preserves per-user id uniqueness: the update
loop never changes an id. -/
theorem perUserUniqueIds_upd (d : Data) (uid rid : Int) (txt : String) (d' : Data)
    (hupd : update_summary_text d uid rid txt = .ok d') (hd : perUserUniqueIds d) :
    perUserUniqueIds d' := by
  cases hu : getUser? d.users (toString uid) with
  | none =>
    rw [update_summary_text.eq_def, hu] at hupd
    cases hupd
  | some u =>
    rw [update_summary_text.eq_def, hu] at hupd
    injection hupd with h1
    subst h1
    intro e he
    rcases mem_setUser _ _ _ _ he with h1' | h1'
    · subst h1'
      have hp := hd (toString uid, u) (getUser?_mem _ _ _ hu)
      have hm : ((updateRecords u.records rid txt).map (fun r => r.id)).Pairwise
          (fun a b => a ≠ b) := by
        rw [updateRecords_map_id]
        exact (@List.pairwise_map Record Int (fun r => r.id)
          (fun a b => a ≠ b) u.records).mpr hp
      exact (@List.pairwise_map Record Int (fun r => r.id)
        (fun a b => a ≠ b) (updateRecords u.records rid txt)).mp hm
    · exact hd e h1'

/-- C6 amended: record ids equal their creation timestamps, so per-user
id uniqueness holds in every state reached by runs in which each append
happens at a timestamp distinct from the ids already present for that
user (distinct creation seconds); two appends for one user within the
same clock second break it, as the counterexample shows. Uniqueness is
in any case scoped per user: the freshness condition only constrains the
incoming user's own list. -/
theorem reachableFresh_unique_ids (d : Data) (h : ReachableFresh d) :
    perUserUniqueIds d := by
  induction h with
  | init =>
    intro e he
    simp [emptyData] at he
  | goc d uid name _ ih => exact perUserUniqueIds_goc d uid name ih
  | save d uid path raw summ ts iso d' n _ hfresh hsave ih =>
    exact perUserUniqueIds_save d uid path raw summ ts iso d' n hsave ih hfresh
  | upd d uid rid txt d' _ hupd ih => exact perUserUniqueIds_upd d uid rid txt d' hupd ih

theorem reachableFresh_unique_ids_witness : perUserUniqueIds dB := by
  apply reachableFresh_unique_ids
  have h0 : ReachableFresh dA := by
    have h := ReachableFresh.goc emptyData 1 "u" ReachableFresh.init
    have e : (get_or_create_user emptyData 1 "u").1 = dA := by decide
    rw [e] at h
    exact h
  exact ReachableFresh.save dA 1 "p1" "r1" "s1" 100 "t1" dB 100 h0 (by decide) (by decide)

/-- C9: for a user present in the store, update_summary_text changes at
most the summary_text of the first record whose id matches: every other
key maps to its old entry, the username is unchanged, the records before
the first match and after it are unchanged and the matched record keeps
its id, audio_path, raw_text and created_at; when no record of that user
matches, the saved store content equals the old one. -/
theorem update_summary_frame (d : Data) (user_id record_id : Int) (new_summary : String)
    (u : UserData) (h : getUser? d.users (toString user_id) = some u) :
    ∃ d', update_summary_text d user_id record_id new_summary = .ok d' ∧
      (∀ k, k ≠ toString user_id → getUser? d'.users k = getUser? d.users k) ∧
      ∃ u', getUser? d'.users (toString user_id) = some u' ∧
        u'.username = u.username ∧
        ((∀ r ∈ u.records, r.id ≠ record_id) → d' = d) ∧
        (∀ pre r post, u.records = pre ++ r :: post →
          (∀ p ∈ pre, p.id ≠ record_id) → r.id = record_id →
          u'.records = pre ++ { r with summary_text := new_summary } :: post) := by
  refine ⟨⟨setUser d.users (toString user_id)
      { u with records := updateRecords u.records record_id new_summary }⟩, ?_, ?_, ?_⟩
  · rw [update_summary_text.eq_def, h]
  · intro k hk
    exact getUser?_setUser_ne _ _ _ _ hk
  · refine ⟨_, getUser?_setUser_self _ _ _, rfl, ?_, ?_⟩
    · intro hnone
      have h1 : updateRecords u.records record_id new_summary = u.records :=
        updateRecords_no_match _ _ _ hnone
      show (⟨setUser d.users (toString user_id)
        { u with records := updateRecords u.records record_id new_summary }⟩ : Data) = d
      rw [h1]
      show (⟨setUser d.users (toString user_id) u⟩ : Data) = d
      rw [setUser_lookup_id d.users (toString user_id) u h]
    · intro pre r post hsplit hpre hr
      show updateRecords u.records record_id new_summary
        = pre ++ { r with summary_text := new_summary } :: post
      rw [hsplit, updateRecords_first_match pre r post record_id new_summary hpre hr]

theorem update_summary_frame_witness :
    ∃ d', update_summary_text d9 1 7 "edited" = .ok d' ∧
      (∀ k, k ≠ "1" → getUser? d'.users k = getUser? d9.users k) ∧
      ∃ u', getUser? d'.users "1" = some u' ∧
        u'.username = "u" ∧
        ((∀ r ∈ [(⟨5, "p5", "r5", "s5", "t5"⟩ : Record), ⟨7, "p7", "r7", "s7", "t7"⟩],
          r.id ≠ 7) → d' = d9) ∧
        (∀ pre r post,
          [(⟨5, "p5", "r5", "s5", "t5"⟩ : Record), ⟨7, "p7", "r7", "s7", "t7"⟩]
            = pre ++ r :: post →
          (∀ p ∈ pre, p.id ≠ 7) → r.id = 7 →
          u'.records = pre ++ { r with summary_text := "edited" } :: post) :=
  update_summary_frame d9 1 7 "edited"
    ⟨"u", [⟨5, "p5", "r5", "s5", "t5"⟩, ⟨7, "p7", "r7", "s7", "t7"⟩]⟩ (by decide)

/-- C10: when the user id is already a key of the store,
get_or_create_user returns the stored entry and leaves the store content
unchanged (nothing is written, the supplied username does not replace
the stored one, the record list is untouched); for an unknown id it
appends a fresh entry carrying the supplied name and an empty record
list, touching no other entry. -/
theorem get_or_create_user_frame (d : Data) (tg_user_id : Int) (username : String) :
    (∀ u, getUser? d.users (toString tg_user_id) = some u →
      (get_or_create_user d tg_user_id username).1 = d ∧
      (get_or_create_user d tg_user_id username).2 = u) ∧
    (getUser? d.users (toString tg_user_id) = none →
      (get_or_create_user d tg_user_id username).1.users
        = d.users ++ [(toString tg_user_id, ⟨username, []⟩)] ∧
      (get_or_create_user d tg_user_id username).2 = ⟨username, []⟩) := by
  constructor
  · intro u hu
    rw [get_or_create_user_found d tg_user_id username u hu]
    exact ⟨rfl, rfl⟩
  · intro hn
    rw [get_or_create_user_new d tg_user_id username hn]
    exact ⟨setUser_none_append d.users _ _ hn, rfl⟩

theorem get_or_create_user_frame_witness :
    (get_or_create_user d10 1 "newname").1 = d10 ∧
    (get_or_create_user d10 1 "newname").2 = ⟨"origname", [⟨5, "p", "r", "s", "t"⟩]⟩ :=
  (get_or_create_user_frame d10 1 "newname").1
    ⟨"origname", [⟨5, "p", "r", "s", "t"⟩]⟩ (by decide)

end Uslishal
